import Mathlib

/-!
# QR App client script (`static/js/main.js`)

A shallow embedding of the storefront page script: the required-field
validation listener, the two `fetch`-based submission handlers
(`addToCart`, `notifyMe`) and the flash-message auto-dismiss timers,
followed by the properties proved about them.

Browser facilities the script calls (`String.prototype.trim`, `FormData`,
`form.reset()`, `setTimeout`, promise chaining) are modelled by small
executable definitions placed next to the handler that uses them.
-/

namespace QRApp

/-! ## Strings and values -/

/-- ECMAScript `WhiteSpace` and `LineTerminator` code points, the characters
that `String.prototype.trim` strips. -/
def isJSWhiteSpace (c : Char) : Bool :=
  let n := c.toNat
  n == 0x09 || n == 0x0A || n == 0x0B || n == 0x0C || n == 0x0D || n == 0x20 ||
  n == 0xA0 || n == 0x1680 || (0x2000 ≤ n && n ≤ 0x200A) || n == 0x2028 ||
  n == 0x2029 || n == 0x202F || n == 0x205F || n == 0x3000 || n == 0xFEFF

/-- The characters of `s.trim()`: leading and trailing white space dropped. -/
def trimChars (cs : List Char) : List Char :=
  ((cs.dropWhile isJSWhiteSpace).reverse.dropWhile isJSWhiteSpace).reverse

/-- JavaScript `s.trim()`. -/
def jsTrim (s : String) : String := ⟨trimChars s.data⟩

/-- Truthiness of a JavaScript string: only the empty string is falsy. -/
def strTruthy (s : String) : Bool := !s.isEmpty

/-- The test `!field.value.trim()` of the validation listener. -/
def isBlank (s : String) : Bool := !strTruthy (jsTrim s)

/-- A JavaScript value as far as the script meets one: the result of
`response.json()`, a property read from it, the argument of `alert`.
A number is kept as its IEEE-754 binary64 bit pattern; the script never
computes with one. -/
inductive JSValue where
  | undefined
  | null
  | bool (b : Bool)
  | number (bits : Nat)
  | string (s : String)
  | array (items : List JSValue)
  | object (props : List (String × JSValue))

/-- An exception or rejection reason: its `name` and `message`. -/
structure JSError where
  name : String
  message : String
  deriving DecidableEq, Repr

/-- ECMAScript `ToBoolean`, the test applied by `if (data.success)`. A number
is falsy when it is `+0`, `-0` or `NaN`. -/
def JSValue.truthy : JSValue → Bool
  | JSValue.undefined => false
  | JSValue.null => false
  | JSValue.bool b => b
  | JSValue.number bits =>
      let m := bits % 2 ^ 63
      !(m == 0) && decide (m ≤ 0x7FF0000000000000)
  | JSValue.string s => strTruthy s
  | JSValue.array _ => true
  | JSValue.object _ => true

/-- Property read `v.key` for a key that no built-in prototype defines (the
script reads `success` and `message`): a `TypeError` on `undefined` and
`null`, the own property of an object, `undefined` otherwise. -/
def getProp (v : JSValue) (key : String) : Except JSError JSValue :=
  match v with
  | JSValue.undefined =>
      Except.error ⟨"TypeError", "Cannot read properties of undefined"⟩
  | JSValue.null =>
      Except.error ⟨"TypeError", "Cannot read properties of null"⟩
  | JSValue.object props => Except.ok ((props.lookup key).getD JSValue.undefined)
  | _ => Except.ok JSValue.undefined

/-! ## Forms -/

/-- A text-like form control (text, number, hidden input, textarea): the
attributes and state the script reads or writes. -/
structure Field where
  name : String
  value : String
  defaultValue : String
  required : Bool
  disabled : Bool
  borderColor : String
  deriving DecidableEq, Repr

/-- A form: its controls in tree order. -/
structure Form where
  fields : List Field
  deriving DecidableEq, Repr

/-- Observable actions of the script, in the order they happen. `alert`
keeps the value it was called with (the dialog shows its string form). -/
inductive Effect where
  | preventDefault
  | alert (arg : JSValue)
  | consoleError (label : String) (error : JSError)
  | fetch (url : String) (method : String) (body : List (String × String))
  | formReset

/-- Colour given to a blank required field. -/
def invalidColor : String := "#dc3545"

/-- Colour given to a filled required field. -/
def validColor : String := "#e0e0e0"

/-- One round of `requiredFields.forEach` on a control of the form, carrying
the flag `isValid` and the controls seen so far. Controls without the
`required` attribute are not selected by
`form.querySelectorAll('[required]')` and stay as they are. -/
def validateStep (acc : Bool × List Field) (f : Field) : Bool × List Field :=
  if f.required then
    if isBlank f.value then (false, acc.2 ++ [{ f with borderColor := invalidColor }])
    else (acc.1, acc.2 ++ [{ f with borderColor := validColor }])
  else (acc.1, acc.2 ++ [f])

/-- The loop of the listener from `let isValid = true`: the final flag and the
controls with their new border colours. -/
def validateLoop (fields : List Field) : Bool × List Field :=
  fields.foldl validateStep (true, [])

/-- Result of running a handler: the form afterwards and the trace. -/
structure Outcome where
  form : Form
  effects : List Effect

/-- The `submit` listener installed on every form at page load. -/
def validateOnSubmit (form : Form) : Outcome :=
  let loop := validateLoop form.fields
  if !loop.1 then
    { form := { fields := loop.2 },
      effects := [Effect.preventDefault,
        Effect.alert (JSValue.string "Please fill in all required fields")] }
  else
    { form := { fields := loop.2 }, effects := [] }

/-- Number of `preventDefault` calls in a trace. -/
def countPreventDefault (es : List Effect) : Nat :=
  es.countP (fun e => match e with | Effect.preventDefault => true | _ => false)

/-- Arguments of the dialogs shown by a trace, in order. -/
def dialogs : List Effect → List JSValue
  | [] => []
  | Effect.alert t :: es => t :: dialogs es
  | _ :: es => dialogs es

/-- Requests sent by a trace, in order. -/
def requests : List Effect → List (String × String × List (String × String))
  | [] => []
  | Effect.fetch u m b :: es => (u, m, b) :: requests es
  | _ :: es => requests es

/-- Number of `form.reset()` calls in a trace. -/
def countReset (es : List Effect) : Nat :=
  es.countP (fun e => match e with | Effect.formReset => true | _ => false)

/-- Number of `console.error` calls in a trace. -/
def countConsoleError (es : List Effect) : Nat :=
  es.countP (fun e => match e with | Effect.consoleError _ _ => true | _ => false)

/-! ## Submission handlers -/

/-- The entry list of `new FormData(form)`: name and value of every control
that has a name and is not disabled, in tree order. -/
def formDataEntries (form : Form) : List (String × String) :=
  (form.fields.filter (fun f => !f.disabled && !f.name.isEmpty)).map
    (fun f => (f.name, f.value))

/-- The method `formData.append(name, value)`: a new entry at the end; entries
of the same name are kept. -/
def formDataAppend (entries : List (String × String)) (name value : String) :
    List (String × String) :=
  entries ++ [(name, value)]

/-- The method `form.reset()`: every control back to its default value. -/
def Form.reset (form : Form) : Form :=
  { fields := form.fields.map (fun f => { f with value := f.defaultValue }) }

/-- A response as the handlers use it: the status line (never read) and the
settlement of `response.json()`. -/
structure Response where
  status : Nat
  json : Except JSError JSValue

/-- Settlement of the promise returned by `fetch`. -/
inductive FetchResult where
  | rejected (reason : JSError)
  | fulfilled (response : Response)

/-- The promise after `.then(response => response.json())`. -/
def parsedBody : FetchResult → Except JSError JSValue
  | FetchResult.rejected e => Except.error e
  | FetchResult.fulfilled r => r.json

/-- The callback `data => ...` of `addToCart`. -/
def addToCartThen (form : Form) (data : JSValue) : Except JSError Outcome :=
  match getProp data "success" with
  | Except.error e => Except.error e
  | Except.ok success =>
    if success.truthy then
      match getProp data "message" with
      | Except.error e => Except.error e
      | Except.ok message =>
        Except.ok { form := form.reset, effects := [Effect.alert message, Effect.formReset] }
    else
      match getProp data "message" with
      | Except.error e => Except.error e
      | Except.ok message => Except.ok { form := form, effects := [Effect.alert message] }

/-- The callback `error => ...` of `addToCart`. -/
def addToCartCatch (form : Form) (error : JSError) : Outcome :=
  { form := form,
    effects := [Effect.consoleError "Error:" error,
      Effect.alert (JSValue.string "Error adding to cart")] }

/-- The function `addToCart(event, productId)` with `event.target = form`, run
to the settlement `result` of its request. `productId` is the string that
`FormData.append` stores for the identifier. -/
def addToCart (form : Form) (productId : String) (result : FetchResult) : Outcome :=
  let formData := formDataAppend (formDataEntries form) "product_id" productId
  let sent := [Effect.preventDefault, Effect.fetch "/add_to_cart" "POST" formData]
  match parsedBody result with
  | Except.error e =>
    let o := addToCartCatch form e
    { o with effects := sent ++ o.effects }
  | Except.ok data =>
    match addToCartThen form data with
    | Except.error e =>
      let o := addToCartCatch form e
      { o with effects := sent ++ o.effects }
    | Except.ok o => { o with effects := sent ++ o.effects }

/-- The fixed text shown by `notifyMe` on success. -/
def notifyConfirmation : String :=
  "You will be notified when this product is back in stock!"

/-- The callback `data => ...` of `notifyMe`. -/
def notifyMeThen (form : Form) (data : JSValue) : Except JSError Outcome :=
  match getProp data "success" with
  | Except.error e => Except.error e
  | Except.ok success =>
    if success.truthy then
      Except.ok { form := form, effects := [Effect.alert (JSValue.string notifyConfirmation)] }
    else
      Except.ok { form := form, effects := [] }

/-- The callback `error => ...` of `notifyMe`. -/
def notifyMeCatch (form : Form) (error : JSError) : Outcome :=
  { form := form,
    effects := [Effect.consoleError "Error:" error,
      Effect.alert (JSValue.string "Error submitting notification request")] }

/-- The function `notifyMe(event, productId)` with `event.target = form`, run
to the settlement `result` of its request. -/
def notifyMe (form : Form) (productId : String) (result : FetchResult) : Outcome :=
  let formData := formDataAppend [] "product_id" productId
  let sent := [Effect.preventDefault, Effect.fetch "/notify_me" "POST" formData]
  match parsedBody result with
  | Except.error e =>
    let o := notifyMeCatch form e
    { o with effects := sent ++ o.effects }
  | Except.ok data =>
    match notifyMeThen form data with
    | Except.error e =>
      let o := notifyMeCatch form e
      { o with effects := sent ++ o.effects }
    | Except.ok o => { o with effects := sent ++ o.effects }

/-- Values of the entries of a payload that carry the given name. -/
def entriesNamed (name : String) (body : List (String × String)) : List String :=
  (body.filter (fun e => e.1 == name)).map (fun e => e.2)

/-! ## Flash messages

The first half of the `DOMContentLoaded` listener. The document is a forest
in first-child / next-sibling form, elements are told apart by an identity
`id`, and timers run on a virtual clock counted in milliseconds. -/

/-- The inline style properties the script writes (an unset one reads `""`). -/
structure Style where
  transition : String
  opacity : String
  deriving DecidableEq, Repr

/-- An element: its identity, class list and inline style. -/
structure Element where
  id : Nat
  classes : List String
  style : Style
  deriving DecidableEq, Repr

/-- A document forest: `node e children siblings`. -/
inductive Dom where
  | empty
  | node (e : Element) (children : Dom) (siblings : Dom)
  deriving DecidableEq, Repr

/-- The elements of the document in tree order. -/
def Dom.elements : Dom → List Element
  | Dom.empty => []
  | Dom.node e c s => e :: (c.elements ++ s.elements)

/-- The element with the given identity, when it is in the document. -/
def Dom.get? (d : Dom) (id : Nat) : Option Element :=
  d.elements.find? (fun e => e.id == id)

/-- Whether the element with the given identity is in the document. -/
def Dom.contains (d : Dom) (id : Nat) : Bool :=
  d.elements.any (fun e => e.id == id)

/-- Whether an element carries a class. -/
def Element.hasClass (e : Element) (cls : String) : Bool := e.classes.contains cls

/-- The call `document.querySelectorAll('.' + cls)`: the matching elements in
tree order, by identity. -/
def querySelectorAll (cls : String) (d : Dom) : List Nat :=
  (d.elements.filter (fun e => e.hasClass cls)).map (fun e => e.id)

/-- The two style assignments of the outer timer callback. -/
def fadeStyle (e : Element) : Element :=
  { e with style := { e.style with transition := "opacity 0.5s", opacity := "0" } }

/-- The document after the style of element `id` is set for the fade. -/
def Dom.setFade (id : Nat) : Dom → Dom
  | Dom.empty => Dom.empty
  | Dom.node e c s =>
    Dom.node (if e.id == id then fadeStyle e else e) (c.setFade id) (s.setFade id)

/-- The document after `msg.remove()` on element `id`: the element leaves the
document together with its subtree. -/
def Dom.remove (id : Nat) : Dom → Dom
  | Dom.empty => Dom.empty
  | Dom.node e c s =>
    if e.id == id then s.remove id else Dom.node e (c.remove id) (s.remove id)

/-- Whether element `id` is an element of class `cls` or lies in the subtree
of one. -/
def Dom.within (cls : String) (id : Nat) : Dom → Bool
  | Dom.empty => false
  | Dom.node e c s =>
    (e.hasClass cls && (e.id == id || c.contains id)) || c.within cls id || s.within cls id

/-- The two timer callbacks of the script, closed over the element `msg`. -/
inductive Callback where
  | fadeOut (msg : Nat)
  | removeMsg (msg : Nat)
  deriving DecidableEq, Repr

/-- A pending timer: the time it is due and its callback. -/
structure Timer where
  due : Nat
  callback : Callback
  deriving DecidableEq, Repr

/-- The page: document, virtual clock and timer queue (earliest first, timers
due at the same time in the order they were set). -/
structure Page where
  dom : Dom
  now : Nat
  timers : List Timer
  deriving DecidableEq, Repr

/-- Queue insertion: after every timer that is due no later. -/
def insertTimer (t : Timer) : List Timer → List Timer
  | [] => [t]
  | u :: us => if u.due ≤ t.due then u :: insertTimer t us else t :: u :: us

/-- The call `setTimeout(callback, delay)`. -/
def setTimeout (callback : Callback) (delay : Nat) (p : Page) : Page :=
  { p with timers := insertTimer ⟨p.now + delay, callback⟩ p.timers }

/-- Running a timer callback. -/
def runCallback : Callback → Page → Page
  | Callback.fadeOut msg, p =>
    setTimeout (Callback.removeMsg msg) 500 { p with dom := p.dom.setFade msg }
  | Callback.removeMsg msg, p => { p with dom := p.dom.remove msg }

/-- Timers a callback can still cause, itself included. -/
def Callback.weight : Callback → Nat
  | Callback.fadeOut _ => 2
  | Callback.removeMsg _ => 1

/-- Total weight of a timer queue. -/
def pending : List Timer → Nat
  | [] => 0
  | t :: ts => t.callback.weight + pending ts

/-- The event loop up to virtual time `t`: every timer due by then fires, in
queue order, at the time it is due. -/
def advance (t : Nat) (p : Page) : Page :=
  match p with
  | ⟨dom, now, []⟩ => ⟨dom, max now t, []⟩
  | ⟨dom, now, tm :: rest⟩ =>
    if tm.due ≤ t then advance t (runCallback tm.callback ⟨dom, max now tm.due, rest⟩)
    else ⟨dom, max now t, tm :: rest⟩
termination_by pending p.timers
decreasing_by
  have ins : ∀ (x : Timer) (l : List Timer),
      pending (insertTimer x l) = x.callback.weight + pending l := by
    intro x l
    induction l with
    | nil => rfl
    | cons u us ih =>
      unfold insertTimer
      split
      · simp only [pending, ih]; omega
      · simp only [pending]
  cases hcb : tm.callback with
  | fadeOut msg =>
    simp only [runCallback, setTimeout, pending, ins, hcb, Callback.weight]
    omega
  | removeMsg msg =>
    simp only [runCallback, pending, hcb, Callback.weight]
    omega

/-- The flash-message part of the `DOMContentLoaded` listener: one timer of
5000 ms for each element of class `alert`. -/
def onDOMContentLoaded (p : Page) : Page :=
  (querySelectorAll "alert" p.dom).foldl
    (fun q msg => setTimeout (Callback.fadeOut msg) 5000 q) p

/-- The page `t` milliseconds after the listener ran on document `d`. -/
def pageAt (d : Dom) (t : Nat) : Page :=
  advance t (onDOMContentLoaded ⟨d, 0, []⟩)

/-- The identities of the elements of the document, in tree order. -/
def Dom.ids (d : Dom) : List Nat := d.elements.map (fun e => e.id)

/-- The document after `setFade` for every identity of a list. -/
def Dom.fadeAll (ids : List Nat) : Dom → Dom
  | Dom.empty => Dom.empty
  | Dom.node e c s =>
    Dom.node (if ids.contains e.id then fadeStyle e else e) (c.fadeAll ids) (s.fadeAll ids)

/-- The document after `remove` for every identity of a list. -/
def Dom.removeAll (ids : List Nat) : Dom → Dom
  | Dom.empty => Dom.empty
  | Dom.node e c s =>
    if ids.contains e.id then s.removeAll ids
    else Dom.node e (c.removeAll ids) (s.removeAll ids)

/-- The outer timer set for element `msg`. -/
def fadeTimer (msg : Nat) : Timer := ⟨5000, Callback.fadeOut msg⟩

/-- The inner timer set for element `msg`. -/
def removeTimer (msg : Nat) : Timer := ⟨5500, Callback.removeMsg msg⟩

/-- A flash message with a close button, followed by a card. -/
def flashDom : Dom :=
  Dom.node ⟨1, ["alert", "alert-success"], ⟨"", ""⟩⟩
    (Dom.node ⟨2, ["btn-close"], ⟨"", ""⟩⟩ Dom.empty Dom.empty)
    (Dom.node ⟨3, ["card"], ⟨"", ""⟩⟩ Dom.empty Dom.empty)

/-! ## Example inputs -/

/-- A quantity form with one required control and a note. -/
def qtyForm : Form :=
  ⟨[⟨"quantity", "3", "1", true, false, ""⟩, ⟨"note", "gift", "", false, false, ""⟩]⟩

/-- A form whose required control holds only white space. -/
def blankForm : Form :=
  ⟨[⟨"quantity", " \t", "1", true, false, ""⟩, ⟨"note", "gift", "", false, false, ""⟩]⟩

/-- A form that has its own control named `product_id`. -/
def idForm : Form :=
  ⟨[⟨"quantity", "3", "1", true, false, ""⟩, ⟨"product_id", "7", "7", false, false, ""⟩]⟩

/-- A fulfilled request whose body parses to the given value. -/
def jsonResponse (status : Nat) (data : JSValue) : FetchResult :=
  FetchResult.fulfilled ⟨status, Except.ok data⟩

/-- The body with the two fields `success` and `message`. -/
def replyBody (success : Bool) (message : String) : JSValue :=
  JSValue.object [("success", JSValue.bool success), ("message", JSValue.string message)]

/-! ## Validation -/

theorem isBlank_iff (s : String) : isBlank s = true ↔ jsTrim s = "" := by
  simp [isBlank, strTruthy, String.isEmpty_iff]

theorem foldl_validateStep (fields : List Field) (b : Bool) (pre : List Field) :
    fields.foldl validateStep (b, pre) =
      (b && fields.all (fun f => !(f.required && isBlank f.value)),
        pre ++ fields.map (fun f =>
          if f.required then
            if isBlank f.value then { f with borderColor := invalidColor }
            else { f with borderColor := validColor }
          else f)) := by
  induction fields generalizing b pre with
  | nil => simp
  | cons f fs ih =>
    simp only [List.foldl, validateStep]
    cases hr : f.required <;> cases hb : isBlank f.value <;> simp [ih, hr, hb]

theorem validateLoop_flag (fields : List Field) :
    (validateLoop fields).1 = fields.all (fun f => !(f.required && isBlank f.value)) := by
  simp [validateLoop, foldl_validateStep]

theorem validateLoop_fields (fields : List Field) :
    (validateLoop fields).2 = fields.map (fun f =>
      if f.required then
        if isBlank f.value then { f with borderColor := invalidColor }
        else { f with borderColor := validColor }
      else f) := by
  simp [validateLoop, foldl_validateStep]

theorem validateLoop_eq_false_iff (form : Form) :
    (validateLoop form.fields).1 = false ↔
      ∃ f ∈ form.fields, f.required = true ∧ jsTrim f.value = "" := by
  rw [← Bool.not_eq_true, validateLoop_flag, List.all_eq_true]
  simp only [Bool.not_eq_true', Bool.not_eq_false, Bool.and_eq_true, isBlank_iff, not_forall]
  constructor
  · rintro ⟨f, hf, h⟩
    exact ⟨f, hf, h⟩
  · rintro ⟨f, hf, h⟩
    exact ⟨f, hf, h⟩

/-- C1: the validation listener calls `preventDefault` exactly when some
required field is blank after trimming; in that case its whole trace is one
`preventDefault` followed by the one dialog "Please fill in all required
fields", and when every required field is filled its trace is empty (no
`preventDefault`, no dialog). -/
theorem validateOnSubmit_suppresses_iff_blank (form : Form) :
    (1 ≤ countPreventDefault (validateOnSubmit form).effects ↔
      ∃ f ∈ form.fields, f.required = true ∧ jsTrim f.value = "") ∧
    ((∃ f ∈ form.fields, f.required = true ∧ jsTrim f.value = "") →
      (validateOnSubmit form).effects =
        [Effect.preventDefault,
          Effect.alert (JSValue.string "Please fill in all required fields")]) ∧
    ((∀ f ∈ form.fields, f.required = true → jsTrim f.value ≠ "") →
      (validateOnSubmit form).effects = []) := by
  have key := validateLoop_eq_false_iff form
  cases hv : (validateLoop form.fields).1 with
  | true =>
    have hno : ¬ ∃ f ∈ form.fields, f.required = true ∧ jsTrim f.value = "" := by
      intro h
      have := key.mpr h
      simp [hv] at this
    refine ⟨?_, ?_, ?_⟩
    · simp [validateOnSubmit, hv, countPreventDefault, hno]
    · intro h
      exact absurd h hno
    · intro _
      simp [validateOnSubmit, hv]
  | false =>
    have hyes := key.mp hv
    refine ⟨?_, ?_, ?_⟩
    · simp only [validateOnSubmit, hv, countPreventDefault]
      simp
      exact hyes
    · intro _
      simp [validateOnSubmit, hv]
    · intro h
      obtain ⟨f, hf, hr, hb⟩ := hyes
      exact absurd hb (h f hf hr)

/-- C1 at concrete forms: a blank required field suppresses the submission
with one dialog, a filled one lets it through. -/
theorem validateOnSubmit_suppresses_iff_blank_witness :
    (validateOnSubmit blankForm).effects =
        [Effect.preventDefault,
          Effect.alert (JSValue.string "Please fill in all required fields")] ∧
    (validateOnSubmit qtyForm).effects = [] :=
  ⟨(validateOnSubmit_suppresses_iff_blank blankForm).2.1
      ⟨⟨"quantity", " \t", "1", true, false, ""⟩, by simp [blankForm], rfl, by decide⟩,
    (validateOnSubmit_suppresses_iff_blank qtyForm).2.2 (by decide)⟩

/-- C9: after a validation pass the form has the same controls with the same
values, and every required control has border colour `#dc3545` when its
trimmed value is empty and `#e0e0e0` otherwise, whatever its colour was
before; so it carries the invalid colour exactly when its value is blank. -/
theorem validateOnSubmit_marks_every_required (form : Form) (i : Nat) (f : Field)
    (hf : form.fields[i]? = some f) :
    ∃ g, (validateOnSubmit form).form.fields[i]? = some g ∧
      g.value = f.value ∧
      (f.required = true →
        g.borderColor = (if jsTrim f.value = "" then "#dc3545" else "#e0e0e0") ∧
        (g.borderColor = "#dc3545" ↔ jsTrim f.value = "")) := by
  have hfields : (validateOnSubmit form).form.fields = (validateLoop form.fields).2 := by
    cases h : (validateLoop form.fields).1 <;> simp [validateOnSubmit, h]
  rw [hfields, validateLoop_fields]
  simp only [List.getElem?_map, hf, Option.map_some']
  refine ⟨_, rfl, ?_, ?_⟩
  · split
    · split <;> rfl
    · rfl
  · intro hr
    rw [if_pos hr]
    by_cases hb : jsTrim f.value = ""
    · have : isBlank f.value = true := (isBlank_iff _).mpr hb
      simp [this, hb, invalidColor]
    · have : isBlank f.value = false := by
        rw [← Bool.not_eq_true, isBlank_iff]
        exact hb
      simp [this, hb, validColor]

/-- C9 at a concrete form: the blank required control, previously marked
valid, is marked invalid. -/
theorem validateOnSubmit_marks_every_required_witness :
    ∃ g, (validateOnSubmit ⟨[⟨"a", "x", "", true, false, "#dc3545"⟩,
        ⟨"b", " ", "", true, false, "#e0e0e0"⟩]⟩).form.fields[1]? = some g ∧
      g.value = " " ∧
      (true = true →
        g.borderColor = (if jsTrim " " = "" then "#dc3545" else "#e0e0e0") ∧
        (g.borderColor = "#dc3545" ↔ jsTrim " " = "")) :=
  validateOnSubmit_marks_every_required
    ⟨[⟨"a", "x", "", true, false, "#dc3545"⟩, ⟨"b", " ", "", true, false, "#e0e0e0"⟩]⟩
    1 ⟨"b", " ", "", true, false, "#e0e0e0"⟩ rfl

/-! ## Submission handlers -/

theorem requests_addToCart (form : Form) (productId : String) (result : FetchResult) :
    requests (addToCart form productId result).effects =
      [("/add_to_cart", "POST", formDataEntries form ++ [("product_id", productId)])] := by
  unfold addToCart
  cases hp : parsedBody result with
  | error e => simp [addToCartCatch, requests, formDataAppend]
  | ok data =>
    simp only
    cases ht : addToCartThen form data with
    | error e => simp [addToCartCatch, requests, formDataAppend]
    | ok o =>
      simp only [requests, formDataAppend, List.cons_append, List.nil_append]
      unfold addToCartThen at ht
      split at ht
      · cases ht
      · split at ht
        · split at ht
          · cases ht
          · cases ht
            rfl
        · split at ht
          · cases ht
          · cases ht
            rfl

theorem effects_notifyMe_head (form : Form) (productId : String) (result : FetchResult) :
    ∃ rest, (notifyMe form productId result).effects =
        Effect.preventDefault ::
          Effect.fetch "/notify_me" "POST" [("product_id", productId)] :: rest ∧
      requests rest = [] ∧ countPreventDefault rest = 0 := by
  unfold notifyMe
  cases hp : parsedBody result with
  | error e => exact ⟨_, rfl, rfl, rfl⟩
  | ok data =>
    simp only
    cases ht : notifyMeThen form data with
    | error e => exact ⟨_, rfl, rfl, rfl⟩
    | ok o =>
      refine ⟨o.effects, rfl, ?_, ?_⟩
      · unfold notifyMeThen at ht
        split at ht
        · cases ht
        · split at ht <;> cases ht <;> rfl
      · unfold notifyMeThen at ht
        split at ht
        · cases ht
        · split at ht <;> cases ht <;> rfl

theorem entriesNamed_append (name : String) (xs ys : List (String × String)) :
    entriesNamed name (xs ++ ys) = entriesNamed name xs ++ entriesNamed name ys := by
  simp [entriesNamed]

/-- C2 (as stated, refuted): for a form that has its own enabled control named
`product_id`, the payload sent by `addToCart` holds two entries of that
name, the form's own and the appended one. -/
theorem addToCart_two_product_id_entries :
    requests (addToCart idForm "9" (jsonResponse 200 (replyBody true "OK"))).effects =
        [("/add_to_cart", "POST",
          [("quantity", "3"), ("product_id", "7"), ("product_id", "9")])] ∧
    entriesNamed "product_id" [("quantity", "3"), ("product_id", "7"), ("product_id", "9")] =
      ["7", "9"] ∧
    (entriesNamed "product_id"
      [("quantity", "3"), ("product_id", "7"), ("product_id", "9")]).length ≠ 1 := by
  refine ⟨?_, ?_, ?_⟩
  · rfl
  · decide
  · decide

/-- C2 (amended): `notifyMe` sends the single entry `product_id`, holding the
supplied identifier; `addToCart` sends the form's own entries followed by
one appended `product_id` entry holding the supplied identifier, so its
`product_id` entries are those of the form followed by the supplied one, and
there is exactly one of them precisely when the form contributes none. -/
theorem product_id_appended_once (form : Form) (productId : String) (result : FetchResult) :
    requests (notifyMe form productId result).effects =
        [("/notify_me", "POST", [("product_id", productId)])] ∧
    entriesNamed "product_id" [("product_id", productId)] = [productId] ∧
    requests (addToCart form productId result).effects =
        [("/add_to_cart", "POST", formDataEntries form ++ [("product_id", productId)])] ∧
    entriesNamed "product_id" (formDataEntries form ++ [("product_id", productId)]) =
        entriesNamed "product_id" (formDataEntries form) ++ [productId] ∧
    ((entriesNamed "product_id" (formDataEntries form ++ [("product_id", productId)])).length = 1
        ↔ entriesNamed "product_id" (formDataEntries form) = []) := by
  have h1 : entriesNamed "product_id" [("product_id", productId)] = [productId] := by
    simp [entriesNamed]
  have h2 : entriesNamed "product_id" (formDataEntries form ++ [("product_id", productId)]) =
      entriesNamed "product_id" (formDataEntries form) ++ [productId] := by
    rw [entriesNamed_append, h1]
  refine ⟨?_, h1, requests_addToCart form productId result, h2, ?_⟩
  · obtain ⟨rest, he, hr, _⟩ := effects_notifyMe_head form productId result
    rw [he]
    simp [requests, hr]
  · rw [h2]
    simp [List.length_eq_zero]

theorem addToCart_object (form : Form) (productId : String) (status : Nat)
    (props : List (String × JSValue)) :
    addToCart form productId (FetchResult.fulfilled ⟨status, Except.ok (JSValue.object props)⟩) =
      if ((props.lookup "success").getD JSValue.undefined).truthy then
        { form := form.reset,
          effects := [Effect.preventDefault,
            Effect.fetch "/add_to_cart" "POST" (formDataEntries form ++ [("product_id", productId)]),
            Effect.alert ((props.lookup "message").getD JSValue.undefined),
            Effect.formReset] }
      else
        { form := form,
          effects := [Effect.preventDefault,
            Effect.fetch "/add_to_cart" "POST" (formDataEntries form ++ [("product_id", productId)]),
            Effect.alert ((props.lookup "message").getD JSValue.undefined)] } := by
  cases h : ((props.lookup "success").getD JSValue.undefined).truthy <;>
    simp [addToCart, parsedBody, addToCartThen, getProp, formDataAppend, h]

theorem addToCart_failed (form : Form) (productId : String) (result : FetchResult)
    (e : JSError) (h : parsedBody result = Except.error e) :
    addToCart form productId result =
      { form := form,
        effects := [Effect.preventDefault,
          Effect.fetch "/add_to_cart" "POST" (formDataEntries form ++ [("product_id", productId)]),
          Effect.consoleError "Error:" e,
          Effect.alert (JSValue.string "Error adding to cart")] } := by
  simp only [addToCart, h, addToCartCatch, formDataAppend]
  rfl

theorem notifyMe_object (form : Form) (productId : String) (status : Nat)
    (props : List (String × JSValue)) :
    notifyMe form productId (FetchResult.fulfilled ⟨status, Except.ok (JSValue.object props)⟩) =
      if ((props.lookup "success").getD JSValue.undefined).truthy then
        { form := form,
          effects := [Effect.preventDefault,
            Effect.fetch "/notify_me" "POST" [("product_id", productId)],
            Effect.alert
              (JSValue.string "You will be notified when this product is back in stock!")] }
      else
        { form := form,
          effects := [Effect.preventDefault,
            Effect.fetch "/notify_me" "POST" [("product_id", productId)]] } := by
  cases h : ((props.lookup "success").getD JSValue.undefined).truthy <;>
    simp [notifyMe, parsedBody, notifyMeThen, getProp, formDataAppend, h, notifyConfirmation]

/-- C3: when the add-to-cart body is an object whose `success` is the boolean
`b` and whose `message` is `msg`, the handler shows exactly one dialog, with
`msg`; it calls `form.reset()` (once) exactly when `b` is true, leaving
every control at its default value, and leaves the form as it was when `b`
is false. -/
theorem addToCart_shows_message_resets_iff_success (form : Form) (productId : String)
    (status : Nat) (props : List (String × JSValue)) (b : Bool) (msg : JSValue)
    (hs : props.lookup "success" = some (JSValue.bool b))
    (hm : props.lookup "message" = some msg) :
    dialogs (addToCart form productId
        (FetchResult.fulfilled ⟨status, Except.ok (JSValue.object props)⟩)).effects = [msg] ∧
    (countReset (addToCart form productId
        (FetchResult.fulfilled ⟨status, Except.ok (JSValue.object props)⟩)).effects = 1
      ↔ b = true) ∧
    (b = true → (addToCart form productId
        (FetchResult.fulfilled ⟨status, Except.ok (JSValue.object props)⟩)).form = form.reset) ∧
    (b = false →
      countReset (addToCart form productId
        (FetchResult.fulfilled ⟨status, Except.ok (JSValue.object props)⟩)).effects = 0 ∧
      (addToCart form productId
        (FetchResult.fulfilled ⟨status, Except.ok (JSValue.object props)⟩)).form = form) := by
  rw [addToCart_object, hs, hm]
  cases b <;> simp [JSValue.truthy, dialogs, countReset]

/-- C3 at the two bodies of the specification: `OK` is shown and quantity goes
back to its default `1`; `Out of stock` is shown and nothing is reset. -/
theorem addToCart_shows_message_resets_iff_success_witness :
    (dialogs (addToCart qtyForm "9" (jsonResponse 200 (replyBody true "OK"))).effects =
        [JSValue.string "OK"] ∧
      (addToCart qtyForm "9" (jsonResponse 200 (replyBody true "OK"))).form =
        ⟨[⟨"quantity", "1", "1", true, false, ""⟩, ⟨"note", "", "", false, false, ""⟩]⟩) ∧
    (dialogs (addToCart qtyForm "9"
        (jsonResponse 200 (replyBody false "Out of stock"))).effects =
        [JSValue.string "Out of stock"] ∧
      countReset (addToCart qtyForm "9"
        (jsonResponse 200 (replyBody false "Out of stock"))).effects = 0 ∧
      (addToCart qtyForm "9" (jsonResponse 200 (replyBody false "Out of stock"))).form =
        qtyForm) :=
  have hok := addToCart_shows_message_resets_iff_success qtyForm "9" 200
    [("success", JSValue.bool true), ("message", JSValue.string "OK")] true
    (JSValue.string "OK") rfl rfl
  have hno := addToCart_shows_message_resets_iff_success qtyForm "9" 200
    [("success", JSValue.bool false), ("message", JSValue.string "Out of stock")] false
    (JSValue.string "Out of stock") rfl rfl
  ⟨⟨hok.1, hok.2.2.1 rfl⟩, hno.1, hno.2.2.2 rfl⟩

/-- C4: when the add-to-cart request is rejected, or its body fails to parse,
the handler logs the failure once, shows exactly one dialog, the generic
"Error adding to cart", never calls `form.reset()` and leaves the form as
it was. -/
theorem addToCart_failure_generic_message (form : Form) (productId : String)
    (status : Nat) (e : JSError) :
    (addToCart form productId (FetchResult.rejected e)).effects =
        [Effect.preventDefault,
          Effect.fetch "/add_to_cart" "POST" (formDataEntries form ++ [("product_id", productId)]),
          Effect.consoleError "Error:" e,
          Effect.alert (JSValue.string "Error adding to cart")] ∧
    (addToCart form productId (FetchResult.rejected e)).form = form ∧
    (addToCart form productId (FetchResult.fulfilled ⟨status, Except.error e⟩)).effects =
        [Effect.preventDefault,
          Effect.fetch "/add_to_cart" "POST" (formDataEntries form ++ [("product_id", productId)]),
          Effect.consoleError "Error:" e,
          Effect.alert (JSValue.string "Error adding to cart")] ∧
    (addToCart form productId (FetchResult.fulfilled ⟨status, Except.error e⟩)).form = form ∧
    dialogs [Effect.preventDefault,
          Effect.fetch "/add_to_cart" "POST" (formDataEntries form ++ [("product_id", productId)]),
          Effect.consoleError "Error:" e,
          Effect.alert (JSValue.string "Error adding to cart")] =
        [JSValue.string "Error adding to cart"] ∧
    countConsoleError [Effect.preventDefault,
          Effect.fetch "/add_to_cart" "POST" (formDataEntries form ++ [("product_id", productId)]),
          Effect.consoleError "Error:" e,
          Effect.alert (JSValue.string "Error adding to cart")] = 1 ∧
    countReset [Effect.preventDefault,
          Effect.fetch "/add_to_cart" "POST" (formDataEntries form ++ [("product_id", productId)]),
          Effect.consoleError "Error:" e,
          Effect.alert (JSValue.string "Error adding to cart")] = 0 := by
  rw [addToCart_failed form productId (FetchResult.rejected e) e rfl,
    addToCart_failed form productId (FetchResult.fulfilled ⟨status, Except.error e⟩) e rfl]
  simp [dialogs, countConsoleError, countReset]

/-- C5: when the notify-me body is an object whose `success` is truthy (the
boolean `true` in particular), whatever its `message` is and whether or
not it has one, the handler shows exactly one dialog, the fixed
confirmation text. -/
theorem notifyMe_success_fixed_text (form : Form) (productId : String) (status : Nat)
    (props : List (String × JSValue)) (v : JSValue)
    (hs : props.lookup "success" = some v) (ht : v.truthy = true) :
    dialogs (notifyMe form productId
        (FetchResult.fulfilled ⟨status, Except.ok (JSValue.object props)⟩)).effects =
      [JSValue.string "You will be notified when this product is back in stock!"] := by
  rw [notifyMe_object, hs]
  simp [ht, dialogs]

/-- C5 at a body that carries its own message, and at one without a message. -/
theorem notifyMe_success_fixed_text_witness :
    dialogs (notifyMe qtyForm "9" (jsonResponse 200 (replyBody true "Thanks!"))).effects =
      [JSValue.string "You will be notified when this product is back in stock!"] ∧
    dialogs (notifyMe qtyForm "9"
        (jsonResponse 200 (JSValue.object [("success", JSValue.bool true)]))).effects =
      [JSValue.string "You will be notified when this product is back in stock!"] :=
  ⟨notifyMe_success_fixed_text qtyForm "9" 200
      [("success", JSValue.bool true), ("message", JSValue.string "Thanks!")]
      (JSValue.bool true) rfl rfl,
    notifyMe_success_fixed_text qtyForm "9" 200 [("success", JSValue.bool true)]
      (JSValue.bool true) rfl rfl⟩

/-- C6 (failing input): when the notify-me body is `success: false` with a
server message, `notifyMe` shows no dialog at all: its whole trace is the
`preventDefault` and the request. -/
theorem notifyMe_business_failure_silent (form : Form) (productId : String) (status : Nat)
    (msg : JSValue) :
    (notifyMe form productId (FetchResult.fulfilled ⟨status,
        Except.ok (JSValue.object [("success", JSValue.bool false), ("message", msg)])⟩)).effects =
      [Effect.preventDefault, Effect.fetch "/notify_me" "POST" [("product_id", productId)]] ∧
    dialogs (notifyMe form productId (FetchResult.fulfilled ⟨status,
        Except.ok (JSValue.object [("success", JSValue.bool false), ("message", msg)])⟩)).effects =
      [] := by
  rw [notifyMe_object]
  simp [JSValue.truthy, dialogs]

/-- C7: for every form, product identifier and settlement of the request,
`notifyMe` calls `preventDefault` once and sends exactly one request, a POST
to `/notify_me` whose payload is the single entry `product_id`; its trace is
the same whatever form triggered the event. -/
theorem notifyMe_payload_only_product_id (form other : Form) (productId : String)
    (result : FetchResult) :
    countPreventDefault (notifyMe form productId result).effects = 1 ∧
    requests (notifyMe form productId result).effects =
      [("/notify_me", "POST", [("product_id", productId)])] ∧
    (notifyMe form productId result).effects = (notifyMe other productId result).effects := by
  obtain ⟨rest, he, hr, hc⟩ := effects_notifyMe_head form productId result
  refine ⟨?_, ?_, ?_⟩
  · rw [he]
    simp only [countPreventDefault] at hc ⊢
    simp [List.countP_cons, hc]
  · rw [he]
    simp [requests, hr]
  · unfold notifyMe
    cases parsedBody result with
    | error e => rfl
    | ok data =>
      simp only [notifyMeThen]
      cases getProp data "success" with
      | error e => rfl
      | ok v => cases h : v.truthy <;> simp [h]

/-- C10: both handlers give the same outcome (trace and form) for two
responses that differ only in their status; in particular a status 500
whose body has `success: true` is handled as a success: the server message
is shown and the form is reset by `addToCart`, the confirmation is shown by
`notifyMe`. -/
theorem outcome_independent_of_status (form : Form) (productId : String) (s1 s2 : Nat)
    (body : Except JSError JSValue) (msg : JSValue) :
    addToCart form productId (FetchResult.fulfilled ⟨s1, body⟩) =
      addToCart form productId (FetchResult.fulfilled ⟨s2, body⟩) ∧
    notifyMe form productId (FetchResult.fulfilled ⟨s1, body⟩) =
      notifyMe form productId (FetchResult.fulfilled ⟨s2, body⟩) ∧
    addToCart form productId (FetchResult.fulfilled ⟨500,
        Except.ok (JSValue.object [("success", JSValue.bool true), ("message", msg)])⟩) =
      { form := form.reset,
        effects := [Effect.preventDefault,
          Effect.fetch "/add_to_cart" "POST" (formDataEntries form ++ [("product_id", productId)]),
          Effect.alert msg, Effect.formReset] } ∧
    dialogs (notifyMe form productId (FetchResult.fulfilled ⟨500,
        Except.ok (JSValue.object [("success", JSValue.bool true), ("message", msg)])⟩)).effects =
      [JSValue.string "You will be notified when this product is back in stock!"] := by
  refine ⟨rfl, rfl, ?_, ?_⟩
  · rw [addToCart_object]
    simp only [List.lookup, beq_self_eq_true, Option.getD_some, JSValue.truthy, if_true]
    rfl
  · rw [notifyMe_object]
    simp [JSValue.truthy, dialogs]

/-! ## Flash messages: the event loop -/

theorem setFade_fadeAll (i : Nat) (ids : List Nat) (d : Dom) :
    (d.setFade i).fadeAll ids = d.fadeAll (i :: ids) := by
  induction d with
  | empty => rfl
  | node e c s ihc ihs =>
    simp only [Dom.setFade, Dom.fadeAll, ihc, ihs]
    congr 1
    by_cases h : e.id = i
    · subst h
      by_cases h2 : ids.contains e.id = true
      · simp [h2, fadeStyle]
      · simp [h2, fadeStyle]
    · have h3 : (e.id == i) = false := by simpa using h
      simp [h, h3]

theorem foldl_setFade (ids : List Nat) (d : Dom) :
    ids.foldl (fun x i => x.setFade i) d = d.fadeAll ids := by
  induction ids generalizing d with
  | nil =>
    simp only [List.foldl]
    induction d with
    | empty => rfl
    | node e c s ihc ihs => simp [Dom.fadeAll, ← ihc, ← ihs]
  | cons i ids ih =>
    simp only [List.foldl]
    rw [ih, setFade_fadeAll]

theorem remove_removeAll (i : Nat) (ids : List Nat) (d : Dom) :
    (d.remove i).removeAll ids = d.removeAll (i :: ids) := by
  induction d with
  | empty => rfl
  | node e c s ihc ihs =>
    by_cases h : e.id = i
    · subst h
      simp [Dom.remove, Dom.removeAll, ihs]
    · have h3 : (e.id == i) = false := by simpa using h
      by_cases h2 : e.id ∈ ids
      · simp [Dom.remove, Dom.removeAll, ihs, h3, h2]
      · simp [Dom.remove, Dom.removeAll, ihs, ihc, h3, h2, h]

theorem removeAll_nil (d : Dom) : d.removeAll [] = d := by
  induction d with
  | empty => rfl
  | node e c s ihc ihs => simp [Dom.removeAll, ihc, ihs]

theorem foldl_remove (ids : List Nat) (d : Dom) :
    ids.foldl (fun x i => x.remove i) d = d.removeAll ids := by
  induction ids generalizing d with
  | nil => simp [removeAll_nil]
  | cons i ids ih =>
    simp only [List.foldl]
    rw [ih, remove_removeAll]

theorem removeAll_fadeAll (ids : List Nat) (d : Dom) :
    (d.fadeAll ids).removeAll ids = d.removeAll ids := by
  induction d with
  | empty => rfl
  | node e c s ihc ihs =>
    by_cases h2 : e.id ∈ ids
    · simp [Dom.fadeAll, Dom.removeAll, h2, fadeStyle, ihs]
    · simp [Dom.fadeAll, Dom.removeAll, h2, ihs, ihc]

theorem insertTimer_last (t : Timer) (ts : List Timer) (h : ∀ u ∈ ts, u.due ≤ t.due) :
    insertTimer t ts = ts ++ [t] := by
  induction ts with
  | nil => rfl
  | cons u us ih =>
    have hu : u.due ≤ t.due := h u (List.mem_cons_self _ _)
    simp only [insertTimer, hu, if_true, List.cons_append]
    rw [ih (fun v hv => h v (List.mem_cons_of_mem _ hv))]

theorem advance_nil (t : Nat) (dom : Dom) (now : Nat) :
    advance t ⟨dom, now, []⟩ = ⟨dom, max now t, []⟩ := by
  rw [advance]

theorem advance_due (t : Nat) (dom : Dom) (now : Nat) (tm : Timer) (rest : List Timer)
    (h : tm.due ≤ t) :
    advance t ⟨dom, now, tm :: rest⟩ =
      advance t (runCallback tm.callback ⟨dom, max now tm.due, rest⟩) := by
  rw [advance, if_pos h]

theorem advance_wait (t : Nat) (dom : Dom) (now : Nat) (tm : Timer) (rest : List Timer)
    (h : t < tm.due) :
    advance t ⟨dom, now, tm :: rest⟩ = ⟨dom, max now t, tm :: rest⟩ := by
  rw [advance, if_neg (Nat.not_le.mpr h)]

theorem advance_removes (t : Nat) (ids : List Nat) (dom : Dom) (now : Nat) (h : now ≤ t) :
    advance t ⟨dom, now, ids.map removeTimer⟩ =
      if 5500 ≤ t then ⟨dom.removeAll ids, t, []⟩ else ⟨dom, t, ids.map removeTimer⟩ := by
  induction ids generalizing dom now with
  | nil =>
    simp [advance_nil, removeAll_nil, Nat.max_eq_right h]
  | cons i ids ih =>
    by_cases ht : 5500 ≤ t
    · simp only [List.map, if_pos ht]
      rw [advance_due _ _ _ _ _ (by simpa [removeTimer] using ht)]
      simp only [removeTimer, runCallback]
      have := ih (dom.remove i) (max now 5500) (Nat.max_le.mpr ⟨h, ht⟩)
      simp only [removeTimer, if_pos ht] at this
      rw [this, remove_removeAll]
    · simp only [List.map, if_neg ht]
      rw [advance_wait _ _ _ _ _ (by simp only [removeTimer]; omega)]
      simp [Nat.max_eq_right h]

theorem advance_fades (t : Nat) (todo done : List Nat) (dom : Dom) (now : Nat)
    (h : now ≤ 5000) (ht : 5000 ≤ t) :
    advance t ⟨dom, now, todo.map fadeTimer ++ done.map removeTimer⟩ =
      advance t ⟨dom.fadeAll todo, 5000, (done ++ todo).map removeTimer⟩ := by
  induction todo generalizing done dom now with
  | nil =>
    have e : dom.fadeAll [] = dom := by rw [← foldl_setFade]; rfl
    simp only [List.map, List.nil_append, List.append_nil, e]
    rw [advance_removes t done dom now (by omega), advance_removes t done dom 5000 ht]
  | cons i todo ih =>
    simp only [List.map, List.cons_append]
    rw [advance_due _ _ _ _ _ (by simpa [fadeTimer] using ht)]
    simp only [fadeTimer, runCallback, setTimeout, Nat.max_eq_right h]
    have hins : insertTimer ⟨5000 + 500, Callback.removeMsg i⟩
        (todo.map fadeTimer ++ done.map removeTimer) =
        todo.map fadeTimer ++ (done ++ [i]).map removeTimer := by
      rw [insertTimer_last]
      · simp [removeTimer]
      · intro u hu
        simp only [List.mem_append, List.mem_map] at hu
        rcases hu with ⟨x, _, rfl⟩ | ⟨x, _, rfl⟩
        · simp [fadeTimer]
        · simp [removeTimer]
    simp only [fadeTimer] at hins ih
    rw [hins, ih (done ++ [i]) (dom.setFade i) 5000 (Nat.le_refl _), setFade_fadeAll]
    simp

theorem onDOMContentLoaded_timers (ids : List Nat) (dom : Dom) (pre : List Nat) :
    ids.foldl (fun q msg => setTimeout (Callback.fadeOut msg) 5000 q)
        (⟨dom, 0, pre.map fadeTimer⟩ : Page) =
      ⟨dom, 0, (pre ++ ids).map fadeTimer⟩ := by
  induction ids generalizing pre with
  | nil => simp
  | cons i ids ih =>
    simp only [List.foldl, setTimeout]
    rw [insertTimer_last]
    · have := ih (pre ++ [i])
      simp only [List.map_append, List.map, List.append_assoc, List.singleton_append] at this ⊢
      simpa [fadeTimer] using this
    · intro u hu
      simp only [List.mem_map] at hu
      obtain ⟨x, _, rfl⟩ := hu
      simp [fadeTimer]

/-- The document at every time after the listener ran, in closed form. -/
theorem pageAt_dom (d : Dom) (t : Nat) :
    (pageAt d t).dom =
      if t < 5000 then d
      else if t < 5500 then d.fadeAll (querySelectorAll "alert" d)
      else d.removeAll (querySelectorAll "alert" d) := by
  have hload : onDOMContentLoaded ⟨d, 0, []⟩ =
      ⟨d, 0, (querySelectorAll "alert" d).map fadeTimer⟩ := by
    have := onDOMContentLoaded_timers (querySelectorAll "alert" d) d []
    simpa [onDOMContentLoaded] using this
  unfold pageAt
  rw [hload]
  by_cases h1 : t < 5000
  · rw [if_pos h1]
    cases hq : querySelectorAll "alert" d with
    | nil => simp [advance_nil]
    | cons i ids =>
      simp only [List.map]
      rw [advance_wait _ _ _ _ _ (by simpa [fadeTimer] using h1)]
  · rw [if_neg h1]
    have h5 : 5000 ≤ t := Nat.le_of_not_lt h1
    have := advance_fades t (querySelectorAll "alert" d) [] d 0 (by omega) h5
    simp only [List.map, List.append_nil, List.nil_append] at this
    rw [this, advance_removes _ _ _ _ h5]
    by_cases h2 : t < 5500
    · rw [if_pos h2, if_neg (by omega)]
    · rw [if_neg h2, if_pos (by omega)]
      simp [removeAll_fadeAll]

/-! ## Flash messages: what happens to each element -/

theorem contains_iff (d : Dom) (i : Nat) : d.contains i = true ↔ i ∈ d.ids := by
  simp only [Dom.contains, Dom.ids, List.any_eq_true, List.mem_map, beq_iff_eq]

theorem contains_eq_false_iff (d : Dom) (i : Nat) : d.contains i = false ↔ i ∉ d.ids := by
  rw [← contains_iff, Bool.not_eq_true]

theorem ids_node (a : Element) (c s : Dom) :
    (Dom.node a c s).ids = a.id :: (c.ids ++ s.ids) := by
  simp [Dom.ids, Dom.elements]

theorem mem_ids_of_mem {d : Dom} {e : Element} (h : e ∈ d.elements) : e.id ∈ d.ids :=
  List.mem_map.mpr ⟨e, h, rfl⟩

theorem within_contains (cls : String) (i : Nat) (d : Dom) (h : d.within cls i = true) :
    i ∈ d.ids := by
  induction d with
  | empty => simp [Dom.within] at h
  | node a c s ihc ihs =>
    rw [ids_node]
    simp only [Dom.within, Bool.or_eq_true, Bool.and_eq_true, beq_iff_eq, contains_iff] at h
    simp only [List.mem_cons, List.mem_append]
    rcases h with (⟨_, h | h⟩ | h) | h
    · exact Or.inl h.symm
    · exact Or.inr (Or.inl h)
    · exact Or.inr (Or.inl (ihc h))
    · exact Or.inr (Or.inr (ihs h))

theorem within_eq_false_of_not_mem (cls : String) (i : Nat) (d : Dom) (h : i ∉ d.ids) :
    d.within cls i = false := by
  rw [← Bool.not_eq_true]
  exact fun hw => h (within_contains cls i d hw)

theorem within_of_mem (cls : String) (d : Dom) (e : Element) (he : e ∈ d.elements)
    (hc : e.hasClass cls = true) : d.within cls e.id = true := by
  induction d with
  | empty => simp [Dom.elements] at he
  | node a c s ihc ihs =>
    simp only [Dom.elements, List.mem_cons, List.mem_append] at he
    simp only [Dom.within, Bool.or_eq_true, Bool.and_eq_true, beq_iff_eq]
    rcases he with rfl | he | he
    · exact Or.inl (Or.inl ⟨hc, Or.inl rfl⟩)
    · exact Or.inl (Or.inr (ihc he))
    · exact Or.inr (ihs he)

theorem find_of_nodup (l : List Element) (e : Element)
    (hn : (l.map (fun x => x.id)).Nodup) (he : e ∈ l) :
    l.find? (fun x => x.id == e.id) = some e := by
  induction l with
  | nil => simp at he
  | cons x xs ih =>
    simp only [List.map, List.nodup_cons, List.mem_map, not_exists, not_and] at hn
    rcases List.mem_cons.mp he with rfl | h
    · simp
    · have hx : (x.id == e.id) = false := by
        simpa using fun hxe => hn.1 e h hxe.symm
      simp only [List.find?, hx]
      exact ih hn.2 h

theorem eq_of_id_eq (l : List Element) (x e : Element)
    (hn : (l.map (fun y => y.id)).Nodup) (hx : x ∈ l) (he : e ∈ l) (h : x.id = e.id) :
    x = e := by
  have h1 := find_of_nodup l e hn he
  have h2 := find_of_nodup l x hn hx
  rw [h] at h2
  rw [h1] at h2
  exact (Option.some.inj h2).symm

theorem mem_querySelectorAll (cls : String) (d : Dom) (e : Element)
    (hn : d.ids.Nodup) (he : e ∈ d.elements) :
    e.id ∈ querySelectorAll cls d ↔ e.hasClass cls = true := by
  simp only [querySelectorAll, List.mem_map, List.mem_filter]
  constructor
  · rintro ⟨x, ⟨hx, hc⟩, hid⟩
    have := eq_of_id_eq d.elements x e hn hx he hid
    rw [← this]
    exact hc
  · intro hc
    exact ⟨e, ⟨he, hc⟩, rfl⟩

theorem elements_fadeAll (ids : List Nat) (d : Dom) :
    (d.fadeAll ids).elements =
      d.elements.map (fun e => if ids.contains e.id then fadeStyle e else e) := by
  induction d with
  | empty => rfl
  | node a c s ihc ihs => simp [Dom.fadeAll, Dom.elements, ihc, ihs]

theorem get_fadeAll (ids : List Nat) (d : Dom) (e : Element)
    (hn : d.ids.Nodup) (he : e ∈ d.elements) :
    (d.fadeAll ids).get? e.id = some (if ids.contains e.id then fadeStyle e else e) := by
  unfold Dom.get?
  rw [elements_fadeAll, List.find?_map]
  have hfun : ((fun x : Element => x.id == e.id) ∘
      fun x => if ids.contains x.id then fadeStyle x else x) =
      (fun x : Element => x.id == e.id) := by
    funext x
    simp only [Function.comp]
    split <;> rfl
  rw [hfun, find_of_nodup d.elements e hn he]
  rfl

theorem removeAll_node_mem (ids : List Nat) (a : Element) (c s : Dom) (h : a.id ∈ ids) :
    (Dom.node a c s).removeAll ids = s.removeAll ids := by
  simp [Dom.removeAll, h]

theorem removeAll_node_not_mem (ids : List Nat) (a : Element) (c s : Dom) (h : a.id ∉ ids) :
    (Dom.node a c s).removeAll ids = Dom.node a (c.removeAll ids) (s.removeAll ids) := by
  simp [Dom.removeAll, h]

theorem removeAll_sublist (ids : List Nat) (d : Dom) :
    (d.removeAll ids).elements.Sublist d.elements := by
  induction d with
  | empty => exact List.Sublist.refl _
  | node a c s ihc ihs =>
    by_cases h : a.id ∈ ids
    · rw [removeAll_node_mem ids a c s h]
      simp only [Dom.elements]
      exact List.Sublist.cons _ (List.Sublist.trans ihs (List.sublist_append_right _ _))
    · rw [removeAll_node_not_mem ids a c s h]
      simp only [Dom.elements]
      exact List.Sublist.cons₂ _ (List.Sublist.append ihc ihs)

theorem mem_removeAll (cls : String) (ids : List Nat) (d : Dom) (e : Element)
    (hn : d.ids.Nodup) (hq : ∀ x ∈ d.elements, (x.id ∈ ids ↔ x.hasClass cls = true)) :
    e ∈ (d.removeAll ids).elements ↔ e ∈ d.elements ∧ d.within cls e.id = false := by
  induction d with
  | empty => simp [Dom.removeAll, Dom.elements]
  | node a c s ihc ihs =>
    rw [ids_node] at hn
    simp only [List.nodup_cons, List.mem_append, not_or, List.nodup_append] at hn
    obtain ⟨⟨hac, has⟩, hnc, hns, hdis⟩ := hn
    have hqc : ∀ x ∈ c.elements, (x.id ∈ ids ↔ x.hasClass cls = true) :=
      fun x hx => hq x (by simp [Dom.elements, hx])
    have hqs : ∀ x ∈ s.elements, (x.id ∈ ids ↔ x.hasClass cls = true) :=
      fun x hx => hq x (by simp [Dom.elements, hx])
    have hqa := hq a (by simp [Dom.elements])
    have ic := ihc hnc hqc
    have is := ihs hns hqs
    have wc := within_eq_false_of_not_mem cls e.id c
    have ws := within_eq_false_of_not_mem cls e.id s
    by_cases h : a.id ∈ ids
    · have hcl : a.hasClass cls = true := hqa.mp h
      rw [removeAll_node_mem ids a c s h]
      simp only [is, Dom.elements,
        List.mem_cons, List.mem_append, Dom.within, hcl, Bool.true_and, Bool.or_eq_false_iff,
        beq_eq_false_iff_ne, contains_eq_false_iff]
      constructor
      · rintro ⟨hes, hw⟩
        have hid := mem_ids_of_mem hes
        have h1 : e.id ∉ c.ids := fun h1 => hdis h1 hid
        exact ⟨Or.inr (Or.inr hes),
          ⟨⟨fun h2 => has (h2 ▸ hid), h1⟩, wc h1⟩, hw⟩
      · rintro ⟨hmem, ⟨⟨hne, hnc2⟩, _⟩, hw⟩
        rcases hmem with rfl | hmem | hmem
        · exact absurd rfl hne
        · exact absurd (mem_ids_of_mem hmem) hnc2
        · exact ⟨hmem, hw⟩
    · have hcl : a.hasClass cls = false := by
        rw [← Bool.not_eq_true]
        exact fun hc => h (hqa.mpr hc)
      rw [removeAll_node_not_mem ids a c s h]
      simp only [ic, is, Dom.elements,
        List.mem_cons, List.mem_append, Dom.within, hcl, Bool.false_and, Bool.false_or,
        Bool.or_eq_false_iff]
      constructor
      · rintro (rfl | ⟨hm, hw⟩ | ⟨hm, hw⟩)
        · exact ⟨Or.inl rfl, wc hac, ws has⟩
        · exact ⟨Or.inr (Or.inl hm), hw, ws (fun h1 => hdis (mem_ids_of_mem hm) h1)⟩
        · exact ⟨Or.inr (Or.inr hm), wc (fun h1 => hdis h1 (mem_ids_of_mem hm)), hw⟩
      · rintro ⟨hm | hm | hm, hwc, hws⟩
        · exact Or.inl hm
        · exact Or.inr (Or.inl ⟨hm, hwc⟩)
        · exact Or.inr (Or.inr ⟨hm, hws⟩)

theorem get_removeAll (cls : String) (ids : List Nat) (d : Dom) (e : Element)
    (hn : d.ids.Nodup) (he : e ∈ d.elements)
    (hq : ∀ x ∈ d.elements, (x.id ∈ ids ↔ x.hasClass cls = true)) :
    (d.removeAll ids).get? e.id = (if d.within cls e.id = true then none else some e) ∧
    (d.removeAll ids).contains e.id = !d.within cls e.id := by
  have hsub := removeAll_sublist ids d
  have hn2 : ((d.removeAll ids).elements.map (fun x => x.id)).Nodup :=
    List.Nodup.sublist (List.Sublist.map _ hsub) hn
  have hmem := mem_removeAll cls ids d e hn hq
  by_cases hw : d.within cls e.id = true
  · have hnone : ∀ x ∈ (d.removeAll ids).elements, ¬ x.id = e.id := by
      intro x hx hid
      have hxe := eq_of_id_eq d.elements x e hn (hsub.subset hx) he hid
      rw [hxe] at hx
      have := (hmem.mp hx).2
      rw [hw] at this
      exact Bool.noConfusion this
    constructor
    · rw [if_pos hw]
      unfold Dom.get?
      rw [List.find?_eq_none]
      intro x hx
      simpa using hnone x hx
    · rw [hw]
      unfold Dom.contains
      simp only [Bool.not_true, List.any_eq_false, beq_iff_eq]
      exact hnone
  · have hw2 : d.within cls e.id = false := by simpa using hw
    have hin : e ∈ (d.removeAll ids).elements := hmem.mpr ⟨he, hw2⟩
    constructor
    · rw [if_neg hw]
      exact find_of_nodup _ e hn2 hin
    · rw [hw2]
      simp only [Bool.not_false, Dom.contains, List.any_eq_true, beq_iff_eq]
      exact ⟨e, hin, rfl⟩

/-- C8 (as stated, refuted): the close button inside a flash message has no
class `alert`, is in the document until 5499 ms and is out of it at 5500 ms,
removed together with the message that contains it. -/
theorem flash_child_removed :
    (flashDom.get? 2).map (fun e => e.hasClass "alert") = some false ∧
    (pageAt flashDom 5499).dom.contains 2 = true ∧
    (pageAt flashDom 5500).dom.contains 2 = false ∧
    (pageAt flashDom 5500).dom.get? 2 = none := by
  rw [pageAt_dom, pageAt_dom]
  decide

/-- C8 (amended): with timers on a virtual clock, for a document whose
elements have distinct identities and an element `e` of it at load: if `e`
has class `alert`, then before 5000 ms it is in the document with its style
untouched, from 5000 ms until 5500 ms it is in the document with transition
`opacity 0.5s` and opacity `0`, and from 5500 ms on it is out of the
document; if `e` has no class `alert` it is never altered, and it is out of
the document exactly from 5500 ms on when it lies inside an `alert`
element (it is removed along with that element), so an element outside
every `alert` element is neither altered nor removed. -/
theorem flash_autodismiss (d : Dom) (e : Element) (t : Nat)
    (hn : d.ids.Nodup) (he : e ∈ d.elements) :
    (e.hasClass "alert" = true →
      (t < 5000 → (pageAt d t).dom.get? e.id = some e) ∧
      (5000 ≤ t → t < 5500 →
        (pageAt d t).dom.get? e.id =
          some { e with style := { e.style with transition := "opacity 0.5s", opacity := "0" } }) ∧
      (t < 5500 → (pageAt d t).dom.contains e.id = true) ∧
      (5500 ≤ t → (pageAt d t).dom.contains e.id = false)) ∧
    (e.hasClass "alert" = false →
      (pageAt d t).dom.get? e.id =
        (if 5500 ≤ t ∧ d.within "alert" e.id = true then none else some e) ∧
      (pageAt d t).dom.contains e.id = !(decide (5500 ≤ t) && d.within "alert" e.id)) := by
  have hq : ∀ x ∈ d.elements,
      (x.id ∈ querySelectorAll "alert" d ↔ x.hasClass "alert" = true) :=
    fun x hx => mem_querySelectorAll "alert" d x hn hx
  have hget := find_of_nodup d.elements e hn he
  have hcont : d.contains e.id = true := (contains_iff d e.id).mpr (mem_ids_of_mem he)
  have hfade := get_fadeAll (querySelectorAll "alert" d) d e hn he
  have hfadec : (d.fadeAll (querySelectorAll "alert" d)).contains e.id = true := by
    rw [contains_iff, Dom.ids, elements_fadeAll]
    simp only [List.map_map, List.mem_map, Function.comp]
    refine ⟨e, he, ?_⟩
    split <;> rfl
  have hrem := get_removeAll "alert" (querySelectorAll "alert" d) d e hn he hq
  rw [pageAt_dom]
  constructor
  · intro hc
    have hmemq : e.id ∈ querySelectorAll "alert" d := (hq e he).mpr hc
    have hw := within_of_mem "alert" d e he hc
    refine ⟨?_, ?_, ?_, ?_⟩
    · intro h1
      rw [if_pos h1]
      exact hget
    · intro h1 h2
      rw [if_neg (by omega), if_pos h2, hfade]
      simp [hmemq, fadeStyle]
    · intro h2
      by_cases h1 : t < 5000
      · rw [if_pos h1]
        exact hcont
      · rw [if_neg h1, if_pos h2]
        exact hfadec
    · intro h3
      rw [if_neg (by omega), if_neg (by omega), hrem.2, hw]
      rfl
  · intro hc
    have hmemq : e.id ∉ querySelectorAll "alert" d := by
      intro h
      have := (hq e he).mp h
      rw [hc] at this
      exact Bool.noConfusion this
    by_cases h1 : t < 5000
    · rw [if_pos h1]
      have h3 : ¬ 5500 ≤ t := by omega
      simp only [h3, false_and, if_false, decide_False, Bool.false_and, Bool.not_false]
      exact ⟨hget, hcont⟩
    · rw [if_neg h1]
      by_cases h2 : t < 5500
      · rw [if_pos h2]
        have h3 : ¬ 5500 ≤ t := by omega
        simp only [h3, false_and, if_false, decide_False, Bool.false_and, Bool.not_false]
        refine ⟨?_, hfadec⟩
        rw [hfade]
        simp [hmemq]
      · rw [if_neg h2]
        have h3 : 5500 ≤ t := by omega
        simp only [h3, true_and, decide_True, Bool.true_and]
        exact hrem

/-- C8 at the flash message, its close button and the card next to it, at
5000 ms and at 5500 ms. -/
theorem flash_autodismiss_witness :
    (pageAt flashDom 5000).dom.get? 1 =
      some ⟨1, ["alert", "alert-success"], ⟨"opacity 0.5s", "0"⟩⟩ ∧
    (pageAt flashDom 5500).dom.contains 1 = false ∧
    (pageAt flashDom 5500).dom.get? 3 = some ⟨3, ["card"], ⟨"", ""⟩⟩ :=
  have hn : flashDom.ids.Nodup := by decide
  have h1 := (flash_autodismiss flashDom ⟨1, ["alert", "alert-success"], ⟨"", ""⟩⟩ 5000 hn
    (by decide)).1 (by decide)
  have h2 := (flash_autodismiss flashDom ⟨1, ["alert", "alert-success"], ⟨"", ""⟩⟩ 5500 hn
    (by decide)).1 (by decide)
  have h3 := (flash_autodismiss flashDom ⟨3, ["card"], ⟨"", ""⟩⟩ 5500 hn
    (by decide)).2 (by decide)
  ⟨h1.2.1 (by decide) (by decide), h2.2.2.2 (by decide), h3.1⟩

end QRApp
